import Mathlib

/-!
Shallow embedding of `src/spx-gui/src/models/common/asset-name.ts`.

JS strings are modelled as lists of Unicode code points (`Str`); all string
literals appearing in the source are in the Basic Multilingual Plane, where
code points coincide with UTF-16 code units, so `List.length` models the
JS `.length` property and indexing models `str[i]`.

The reserved-word tables `keywords` and `typeKeywords` are imported by the
source from `@/utils/spx`, which is outside the file under study; they are
modelled as explicit parameters (two lists of names), following the spec's
description of them as a fixed, externally provided reserved-word table.
-/

/-- Names and other JS strings, as lists of code points. -/
abbrev Str := List Char

/-- Shorthand for the code-point list of a Lean string literal. -/
def str (s : String) : Str := s.data

/-- Bilingual error message object, as returned by the validators. -/
structure ErrorMessage where
  en : String
  zh : String
deriving DecidableEq, Repr

/-- Modelled from the spec: a costume entity, read only through its `name` field. -/
structure Costume where
  name : Str
deriving DecidableEq, Repr

/-- Modelled from the spec: a sound entity, read only through its `name` field. -/
structure Sound where
  name : Str
deriving DecidableEq, Repr

/-- Modelled from the spec: a backdrop entity, read only through its `name` field. -/
structure Backdrop where
  name : Str
deriving DecidableEq, Repr

/-- Modelled from the spec: a sprite scope, read through its `name` and its costume list. -/
structure Sprite where
  name : Str
  costumes : List Costume
deriving DecidableEq, Repr

/-- Modelled from the spec: a stage scope, read through its backdrop list. -/
structure Stage where
  backdrops : List Backdrop
deriving DecidableEq, Repr

/-- Modelled from the spec: a project scope, read through its sprite and sound lists. -/
structure Project where
  sprites : List Sprite
  sounds : List Sound
deriving DecidableEq, Repr

/-- Whether a code point lies in the CJK range `一`-`龥` of the name regex. -/
def isCJK (c : Char) : Bool := 0x4e00 ≤ c.toNat && c.toNat ≤ 0x9fa5

/-- Whether a code point is an ASCII letter (`a-zA-Z`). -/
def isAsciiLetter (c : Char) : Bool :=
  (0x61 ≤ c.toNat && c.toNat ≤ 0x7a) || (0x41 ≤ c.toNat && c.toNat ≤ 0x5a)

/-- Whether a code point is an ASCII digit (`0-9`). -/
def isAsciiDigit (c : Char) : Bool := 0x30 ≤ c.toNat && c.toNat ≤ 0x39

/-- Character class of the first character of the name regex. -/
def isNameStart (c : Char) : Bool := isCJK c || isAsciiLetter c || c = '_'

/-- Character class of the remaining characters of the name regex. -/
def isNameChar (c : Char) : Bool := isNameStart c || isAsciiDigit c

/-- Test of the anchored regex from `validateAssetName`. -/
def matchesNameRegex : Str → Bool
  | [] => false
  | c :: cs => isNameStart c && cs.all isNameChar

/-- Error object for a blank name. -/
def blankError : ErrorMessage :=
  ⟨"The name must not be blank", "名字不可为空"⟩

/-- Error object for an overlong name. -/
def tooLongError : ErrorMessage :=
  ⟨"The name is too long (maximum is 100 characters)", "名字长度超出限制（最多 100 个字符）"⟩

/-- Error object for a name failing the regex test. -/
def invalidNameError : ErrorMessage :=
  ⟨"Invalid name", "格式不正确"⟩

/-- Error object for a name conflicting with a reserved word. -/
def keywordsError : ErrorMessage :=
  ⟨"Conflict with keywords", "与关键字冲突"⟩

/-- Embeds `validateAssetName`; `none` models the implicit `undefined` return. -/
def validateAssetName (keywords typeKeywords : List Str) (name : Str) : Option ErrorMessage :=
  if name = [] then some blankError
  else if name.length > 100 then some tooLongError
  else if ¬ matchesNameRegex name then some invalidNameError
  else if name ∈ typeKeywords then some keywordsError
  else if name ∈ keywords then some keywordsError
  else none

/-- Error object reporting a sprite-name collision. -/
def spriteExistsError (name : Str) : ErrorMessage :=
  ⟨"Sprite with name " ++ String.mk name ++ " already exists", "存在同名的精灵"⟩

/-- Error object reporting a sound-name collision. -/
def soundExistsError (name : Str) : ErrorMessage :=
  ⟨"Sound with name " ++ String.mk name ++ " already exists", "存在同名的声音"⟩

/-- Error object reporting a costume-name collision. -/
def costumeExistsError (name : Str) : ErrorMessage :=
  ⟨"Costume with name " ++ String.mk name ++ " already exists", "存在同名的造型"⟩

/-- Error object reporting a backdrop-name collision. -/
def backdropExistsError (name : Str) : ErrorMessage :=
  ⟨"Backdrop with name " ++ String.mk name ++ " already exists", "存在同名的背景"⟩

/-- Embeds `validateSpriteName`; `.find` truthiness becomes `List.any`. -/
def validateSpriteName (keywords typeKeywords : List Str) (name : Str)
    (project : Option Project) : Option ErrorMessage :=
  match validateAssetName keywords typeKeywords name with
  | some err => some err
  | none =>
    match project with
    | none => none
    | some project =>
      if project.sprites.any (fun s => s.name == name) then some (spriteExistsError name)
      else if project.sounds.any (fun s => s.name == name) then some (soundExistsError name)
      else none

/-- Embeds `validateCostumeName`. -/
def validateCostumeName (keywords typeKeywords : List Str) (name : Str)
    (sprite : Option Sprite) : Option ErrorMessage :=
  match validateAssetName keywords typeKeywords name with
  | some err => some err
  | none =>
    match sprite with
    | none => none
    | some sprite =>
      if sprite.costumes.any (fun c => c.name == name) then some (costumeExistsError name)
      else none

/-- Embeds `validateSoundName`: the source delegates to `validateSpriteName`. -/
def validateSoundName (keywords typeKeywords : List Str) (name : Str)
    (project : Option Project) : Option ErrorMessage :=
  validateSpriteName keywords typeKeywords name project

/-- Embeds `validateBackdropName`. -/
def validateBackdropName (keywords typeKeywords : List Str) (name : Str)
    (stage : Option Stage) : Option ErrorMessage :=
  match validateAssetName keywords typeKeywords name with
  | some err => some err
  | none =>
    match stage with
    | none => none
    | some stage =>
      if stage.backdrops.any (fun b => b.name == name) then some (backdropExistsError name)
      else none

/-- Case style argument of `normalizeAssetName` (the TS union type `camel`-or-`pascal`). -/
inductive Cas where
  | camel
  | pascal
deriving DecidableEq, Repr

/-- Whether a code point belongs to the word class `[a-zA-Z0-9_]`. -/
def isWordChar (c : Char) : Bool := isAsciiLetter c || isAsciiDigit c || c = '_'

/-- Embeds the global replace of each maximal run of characters outside
`[a-zA-Z0-9_]` by a single `_`: a non-word character followed by another
non-word character is part of the same run, whose single `_` is emitted at
the run's last character. -/
def collapseNonWord : Str → Str
  | [] => []
  | c :: cs =>
    if isWordChar c then c :: collapseNonWord cs
    else
      match cs with
      | [] => ['_']
      | d :: _ => if isWordChar d then '_' :: collapseNonWord cs else collapseNonWord cs

/-- Embeds the global replace inserting `_` before every uppercase ASCII letter. -/
def markUpper : Str → Str
  | [] => []
  | c :: cs =>
    if (0x41 ≤ c.toNat && c.toNat ≤ 0x5a) then '_' :: c :: markUpper cs
    else c :: markUpper cs

/-- Embeds `String.prototype.split` with separator `_`. -/
def splitUnderscore : Str → List Str
  | [] => [[]]
  | c :: cs =>
    if c = '_' then [] :: splitUnderscore cs
    else
      match splitUnderscore cs with
      | [] => [[c]]
      | p :: ps => (c :: p) :: ps

/-- Embeds `upFirst`; on the empty string `str[0]` is `undefined` and
`.toUpperCase()` throws a TypeError, modelled as `none`. After the
normalization pipeline every argument consists of word characters, where
`Char.toUpper` agrees with the JS `toUpperCase` on the single code unit. -/
def upFirst : Str → Option Str
  | [] => none
  | c :: cs => some (c.toUpper :: cs)

/-- Steps 1-4 of the `normalizeAssetName` pipeline: collapse non-word runs,
mark uppercase letters, lowercase (only ASCII letters remain at this point,
where `Char.toLower` agrees with JS `toLowerCase`), strip the leading run of
non-letters. -/
def normalizePreprocess (src : Str) : Str :=
  ((markUpper (collapseNonWord src)).map Char.toLower).dropWhile (fun c => ! isAsciiLetter c)

/-- The `parts` list of `normalizeAssetName`: split on `_`, keep truthy
(non-empty) segments. -/
def normalizeParts (src : Str) : List Str :=
  (splitUnderscore (normalizePreprocess src)).filter (fun p => ! p.isEmpty)

/-- Embeds `Array.prototype.map` with callback `upFirst`, propagating the
exception of any element. -/
def mapUpFirst : List Str → Option (List Str)
  | [] => some []
  | p :: ps => do
    let q ← upFirst p
    let qs ← mapUpFirst ps
    pure (q :: qs)

/-- Embeds `normalizeAssetName`, propagating the potential `upFirst`
exception as `none` (proved unreachable below). -/
def normalizeAssetNameE (src : Str) (cas : Cas) : Option Str :=
  match normalizeParts src with
  | [] => some []
  | firstpart :: otherParts => do
    let first ← match cas with
      | .pascal => upFirst firstpart
      | .camel => some firstpart
    let others ← mapUpFirst otherParts
    pure ((first :: others).flatten.take 20)

/-- Total version of `normalizeAssetName`, used by the generators; it agrees
with `normalizeAssetNameE` everywhere since the exception is unreachable. -/
def normalizeAssetName (src : Str) (cas : Cas) : Str :=
  (normalizeAssetNameE src cas).getD []

/-- Message of the error thrown by `getValidName` on loop exhaustion. -/
def infiniteLoopMsg (base : Str) : String :=
  "unexpected infinite loop with base " ++ String.mk base

/-- Loop of `getValidName`, instrumented: the returned `Nat` counts the
`isValid` invocations performed. The source loop runs `i = 1, 2, ...`,
testing `base` for `i = 1` and `base + i` afterwards, and throws after the
test at `i = 10001` (the `i > 10000` check follows the `isValid` call);
this is embedded as structural recursion on the fuel `k = 10002 - i`,
starting from `k = 10001`. -/
def getValidNameAux (base : Str) (isValid : Str → Bool) : Nat → Nat → Except String Str × Nat
  | 0, _ => (.error (infiniteLoopMsg base), 0)
  | k + 1, i =>
    let name := if i = 1 then base else base ++ (Nat.repr i).data
    if isValid name then (.ok name, 1)
    else
      let r := getValidNameAux base isValid k (i + 1)
      (r.1, r.2 + 1)

/-- Embeds `getValidName`; a thrown error is `Except.error`. -/
def getValidName (base : Str) (isValid : Str → Bool) : Except String Str :=
  (getValidNameAux base isValid 10001 1).1

/-- Embeds `getSpriteName` (default base is the empty string; `||` picks the
fallback exactly when normalization returns the falsy empty string). -/
def getSpriteName (keywords typeKeywords : List Str) (project : Option Project)
    (base : Str) : Except String Str :=
  let b := normalizeAssetName base .pascal
  let b := if b = [] then str "Sprite" else b
  getValidName b (fun n => (validateSpriteName keywords typeKeywords n project).isNone)

/-- Embeds `ensureValidSpriteName`. -/
def ensureValidSpriteName (keywords typeKeywords : List Str) (name : Str)
    (project : Option Project) : Except String Str :=
  if (validateSpriteName keywords typeKeywords name project).isNone then .ok name
  else getSpriteName keywords typeKeywords project name

/-- Embeds `getCostumeName`. -/
def getCostumeName (keywords typeKeywords : List Str) (sprite : Option Sprite)
    (base : Str) : Except String Str :=
  let b := normalizeAssetName base .camel
  let b := if b = [] then str "costume" else b
  getValidName b (fun n => (validateCostumeName keywords typeKeywords n sprite).isNone)

/-- Embeds `ensureValidCostumeName`. -/
def ensureValidCostumeName (keywords typeKeywords : List Str) (name : Str)
    (sprite : Option Sprite) : Except String Str :=
  if (validateCostumeName keywords typeKeywords name sprite).isNone then .ok name
  else getCostumeName keywords typeKeywords sprite name

/-- Embeds `getSoundName`. -/
def getSoundName (keywords typeKeywords : List Str) (project : Option Project)
    (base : Str) : Except String Str :=
  let b := normalizeAssetName base .camel
  let b := if b = [] then str "sound" else b
  getValidName b (fun n => (validateSoundName keywords typeKeywords n project).isNone)

/-- Embeds `ensureValidSoundName`. -/
def ensureValidSoundName (keywords typeKeywords : List Str) (name : Str)
    (project : Option Project) : Except String Str :=
  if (validateSoundName keywords typeKeywords name project).isNone then .ok name
  else getSoundName keywords typeKeywords project name

/-- Embeds `getBackdropName`. -/
def getBackdropName (keywords typeKeywords : List Str) (stage : Option Stage)
    (base : Str) : Except String Str :=
  let b := normalizeAssetName base .camel
  let b := if b = [] then str "backdrop" else b
  getValidName b (fun n => (validateBackdropName keywords typeKeywords n stage).isNone)

/-- Embeds `ensureValidBackdropName`. -/
def ensureValidBackdropName (keywords typeKeywords : List Str) (name : Str)
    (stage : Option Stage) : Except String Str :=
  if (validateBackdropName keywords typeKeywords name stage).isNone then .ok name
  else getBackdropName keywords typeKeywords stage name

/-! ### Helper lemmas -/

/-- Any name returned successfully by the `getValidName` loop passed its
`isValid` test. -/
theorem getValidNameAux_fst_ok (base : Str) (isValid : Str → Bool) :
    ∀ k i n, (getValidNameAux base isValid k i).1 = Except.ok n → isValid n = true := by
  intro k
  induction k with
  | zero =>
    intro i n h
    simp [getValidNameAux] at h
  | succ k ih =>
    intro i n h
    rw [getValidNameAux] at h
    by_cases hv : isValid (if i = 1 then base else base ++ (Nat.repr i).data) = true
    · simp only [hv, if_pos] at h
      injection h with h2
      exact h2 ▸ hv
    · simp only [Bool.not_eq_true] at hv
      simp only [hv, Bool.false_eq_true, if_false] at h
      exact ih (i + 1) n h

/-- The `getValidName` loop under an always-failing validator throws and
performs exactly one `isValid` invocation per unit of fuel. -/
theorem getValidNameAux_allFalse (base : Str) (isValid : Str → Bool)
    (hf : ∀ n, isValid n = false) :
    ∀ k i, getValidNameAux base isValid k i =
      (Except.error (infiniteLoopMsg base), k) := by
  intro k
  induction k with
  | zero => intro i; rfl
  | succ k ih =>
    intro i
    rw [getValidNameAux]
    simp only [hf, Bool.false_eq_true, if_false, ih (i + 1)]

/-- Success of `getValidName` implies the returned name passed `isValid`. -/
theorem getValidName_ok (base : Str) (isValid : Str → Bool) (n : Str)
    (h : getValidName base isValid = Except.ok n) : isValid n = true :=
  getValidNameAux_fst_ok base isValid 10001 1 n h

/-- The mapped `upFirst` succeeds on any list of non-empty fragments. -/
theorem mapUpFirst_isSome : ∀ l : List Str, (∀ p ∈ l, p ≠ []) → ∃ r, mapUpFirst l = some r := by
  intro l
  induction l with
  | nil => exact fun _ => ⟨[], rfl⟩
  | cons p ps ih =>
    intro h
    obtain ⟨r, hr⟩ := ih fun q hq => h q (List.mem_cons_of_mem p hq)
    cases p with
    | nil => exact absurd rfl (h [] (List.mem_cons_self [] ps))
    | cons c cs => exact ⟨(c.toUpper :: cs) :: r, by simp [mapUpFirst, upFirst, hr]⟩

/-- Every fragment produced by the split-and-filter stage is non-empty. -/
theorem normalizeParts_ne_nil (src : Str) : ∀ p ∈ normalizeParts src, p ≠ [] := by
  intro p hp
  rw [normalizeParts, List.mem_filter] at hp
  intro hnil
  rw [hnil] at hp
  simp at hp

/-- The `upFirst` exception inside `normalizeAssetNameE` is unreachable. -/
theorem normalizeAssetNameE_eq_some (src : Str) (cas : Cas) :
    normalizeAssetNameE src cas = some (normalizeAssetName src cas) := by
  suffices h : ∃ r, normalizeAssetNameE src cas = some r by
    obtain ⟨r, hr⟩ := h
    rw [normalizeAssetName, hr, Option.getD_some]
  rw [normalizeAssetNameE]
  cases hp : normalizeParts src with
  | nil => exact ⟨[], rfl⟩
  | cons firstpart otherParts =>
    have hne := normalizeParts_ne_nil src
    rw [hp] at hne
    obtain ⟨r, hr⟩ := mapUpFirst_isSome otherParts
      fun q hq => hne q (List.mem_cons_of_mem firstpart hq)
    cases cas with
    | camel => exact ⟨(firstpart :: r).flatten.take 20, by simp [hr]⟩
    | pascal =>
      cases hf : firstpart with
      | nil => exact absurd (hf ▸ hne firstpart (List.mem_cons_self firstpart otherParts)) (by simp)
      | cons c cs =>
        exact ⟨((c.toUpper :: cs) :: r).flatten.take 20, by simp [upFirst, hr]⟩

/-! ### Claim theorems -/

/-- C1: whenever a name generator (`getSpriteName`, `getCostumeName`,
`getSoundName`, `getBackdropName`) returns normally, the returned name
passes the corresponding validator (`validateSpriteName`,
`validateCostumeName`, `validateSoundName`, `validateBackdropName`),
for every scope (possibly null) and every base string. -/
theorem getName_valid_postcondition :
    (∀ keywords typeKeywords project base n,
      getSpriteName keywords typeKeywords project base = Except.ok n →
      validateSpriteName keywords typeKeywords n project = none) ∧
    (∀ keywords typeKeywords sprite base n,
      getCostumeName keywords typeKeywords sprite base = Except.ok n →
      validateCostumeName keywords typeKeywords n sprite = none) ∧
    (∀ keywords typeKeywords project base n,
      getSoundName keywords typeKeywords project base = Except.ok n →
      validateSoundName keywords typeKeywords n project = none) ∧
    (∀ keywords typeKeywords stage base n,
      getBackdropName keywords typeKeywords stage base = Except.ok n →
      validateBackdropName keywords typeKeywords n stage = none) := by
  refine ⟨?_, ?_, ?_, ?_⟩ <;>
  · intro kw tkw scope base n h
    simp only [getSpriteName, getCostumeName, getSoundName, getBackdropName] at h
    exact Option.isNone_iff_eq_none.mp (getValidName_ok _ _ _ h)

/-- C1 witness: on an empty project and empty base, `getSpriteName` returns
the default name `Sprite`, which validates. -/
theorem getName_valid_postcondition_witness :
    getSpriteName [] [] (some ⟨[], []⟩) [] = Except.ok (str "Sprite") ∧
    validateSpriteName [] [] (str "Sprite") (some ⟨[], []⟩) = none :=
  ⟨rfl, getName_valid_postcondition.1 [] [] (some ⟨[], []⟩) [] (str "Sprite") rfl⟩

/-- C2: `validateAssetName` checks blank, then length over 100, then the
grammar regex, then the reserved sets, short-circuiting with the matching
bilingual message, and returns `none` exactly when the name is non-empty,
at most 100 characters, matches the regex, and lies in neither reserved
set. -/
theorem validateAssetName_precedence_spec :
    ∀ keywords typeKeywords name,
      (name = [] → validateAssetName keywords typeKeywords name = some blankError) ∧
      (name ≠ [] → 100 < name.length →
        validateAssetName keywords typeKeywords name = some tooLongError) ∧
      (name ≠ [] → name.length ≤ 100 → matchesNameRegex name = false →
        validateAssetName keywords typeKeywords name = some invalidNameError) ∧
      (name ≠ [] → name.length ≤ 100 → matchesNameRegex name = true →
        name ∈ typeKeywords ∨ name ∈ keywords →
        validateAssetName keywords typeKeywords name = some keywordsError) ∧
      (validateAssetName keywords typeKeywords name = none ↔
        name ≠ [] ∧ name.length ≤ 100 ∧ matchesNameRegex name = true ∧
        name ∉ typeKeywords ∧ name ∉ keywords) := by
  intro keywords typeKeywords name
  refine ⟨fun h => by simp [validateAssetName, h], ?_, ?_, ?_, ?_⟩
  · intro h1 h2
    rw [validateAssetName, if_neg h1, if_pos (by omega)]
  · intro h1 h2 h3
    rw [validateAssetName, if_neg h1, if_neg (by omega), if_pos (by simp [h3])]
  · intro h1 h2 h3 h4
    rw [validateAssetName, if_neg h1, if_neg (by omega), if_neg (by simp [h3])]
    rcases h4 with h4 | h4
    · rw [if_pos h4]
    · by_cases h5 : name ∈ typeKeywords
      · rw [if_pos h5]
      · rw [if_neg h5, if_pos h4]
  · rw [validateAssetName]
    split_ifs with h1 h2 h3 h4 h5 <;> simp_all

/-- C2 witness: a reserved word (here with `func` in the keyword set) is
non-blank, short, grammatical, and rejected with the keyword message. -/
theorem validateAssetName_precedence_spec_witness :
    (str "func" ≠ [] ∧ (str "func").length ≤ 100 ∧ matchesNameRegex (str "func") = true ∧
      (str "func" ∈ ([] : List Str) ∨ str "func" ∈ [str "func"])) ∧
    validateAssetName [str "func"] [] (str "func") = some keywordsError :=
  ⟨⟨by decide, by decide, by decide, Or.inr (by decide)⟩,
    (validateAssetName_precedence_spec [str "func"] [] (str "func")).2.2.2.1
      (by decide) (by decide) (by decide) (Or.inr (by decide))⟩

/-- C3: `validateSpriteName` returns `none` on a non-null project exactly
when `validateAssetName` accepts the name and no existing sprite or sound
of the project carries it; on a null project it coincides with
`validateAssetName`, so only grammar and reserved-word checks apply. -/
theorem validateSpriteName_characterization :
    ∀ keywords typeKeywords name project,
      (validateSpriteName keywords typeKeywords name (some project) = none ↔
        validateAssetName keywords typeKeywords name = none ∧
        (∀ s ∈ project.sprites, s.name ≠ name) ∧
        (∀ s ∈ project.sounds, s.name ≠ name)) ∧
      (validateSpriteName keywords typeKeywords name none =
        validateAssetName keywords typeKeywords name) := by
  intro keywords typeKeywords name project
  constructor
  · rw [validateSpriteName]
    cases hva : validateAssetName keywords typeKeywords name with
    | some e => simp
    | none =>
      simp only [true_and, Option.some.injEq]
      constructor
      · intro h
        by_cases h1 : project.sprites.any (fun s => s.name == name) = true
        · rw [if_pos h1] at h; exact absurd h (by simp)
        · rw [if_neg h1] at h
          by_cases h2 : project.sounds.any (fun s => s.name == name) = true
          · rw [if_pos h2] at h; exact absurd h (by simp)
          · rw [if_neg h2] at h
            simp only [List.any_eq_true, Bool.not_eq_true, beq_iff_eq] at h1 h2
            exact ⟨fun s hs => fun he => h1 ⟨s, hs, by simp [he]⟩,
              fun s hs => fun he => h2 ⟨s, hs, by simp [he]⟩⟩
      · rintro ⟨hs, hd⟩
        rw [if_neg, if_neg]
        · simp only [List.any_eq_true, beq_iff_eq]
          rintro ⟨s, hmem, he⟩
          exact hd s hmem he
        · simp only [List.any_eq_true, beq_iff_eq]
          rintro ⟨s, hmem, he⟩
          exact hs s hmem he
  · rw [validateSpriteName]
    cases validateAssetName keywords typeKeywords name <;> rfl

/-- C3 witness: a grammatical name colliding with nothing validates in a
project whose sole sound has a different name. -/
theorem validateSpriteName_characterization_witness :
    validateSpriteName [] [] (str "Cat") (some ⟨[], [⟨str "meow"⟩]⟩) = none :=
  ((validateSpriteName_characterization [] [] (str "Cat") ⟨[], [⟨str "meow"⟩]⟩).1).mpr
    ⟨by decide, by decide, by decide⟩

/-- C4 counterexample: with an always-false `isValid` the loop does throw,
but only after invoking `isValid` 10,001 times (once per `i` from 1 to
10,001, since the `i > 10000` check runs after the `isValid` call), which
exceeds the claimed bound of 10,000 invocations. -/
theorem getValidName_exhaustion_counterexample :
    getValidName (str "x") (fun _ => false) = Except.error (infiniteLoopMsg (str "x")) ∧
    (getValidNameAux (str "x") (fun _ => false) 10001 1).2 = 10001 ∧
    ¬ (getValidNameAux (str "x") (fun _ => false) 10001 1).2 ≤ 10000 := by
  have h := getValidNameAux_allFalse (str "x") (fun _ => false) (fun _ => rfl) 10001 1
  refine ⟨?_, ?_, ?_⟩
  · rw [getValidName, h]
  · rw [h]
  · rw [h]; decide

/-- C4 amended: `getValidName` with an always-false `isValid` fails fatally
with the infinite-loop error rather than looping forever, and the failure
occurs after exactly 10,001 `isValid` invocations (at most 10,001, not
10,000). -/
theorem getValidName_exhaustion_amended (base : Str) (isValid : Str → Bool)
    (hf : ∀ n, isValid n = false) :
    getValidName base isValid = Except.error (infiniteLoopMsg base) ∧
    (getValidNameAux base isValid 10001 1).2 = 10001 := by
  have h := getValidNameAux_allFalse base isValid hf 10001 1
  exact ⟨by rw [getValidName, h], by rw [h]⟩

/-- C4 witness: the amended claim at base `y` and the constantly-false
validator. -/
theorem getValidName_exhaustion_amended_witness :
    getValidName (str "y") (fun _ => false) = Except.error (infiniteLoopMsg (str "y")) ∧
    (getValidNameAux (str "y") (fun _ => false) 10001 1).2 = 10001 :=
  getValidName_exhaustion_amended (str "y") (fun _ => false) (fun _ => rfl)

/-- C5: `validateSoundName` delegates entirely to `validateSpriteName`,
returning the identical result for every name and project. -/
theorem validateSoundName_eq_validateSpriteName :
    ∀ keywords typeKeywords name project,
      validateSoundName keywords typeKeywords name project =
        validateSpriteName keywords typeKeywords name project :=
  fun _ _ _ _ => rfl

/-- C6: a name that already validates in scope is returned unchanged by
`ensureValidSpriteName`. -/
theorem ensureValidSpriteName_roundtrip :
    ∀ keywords typeKeywords name project,
      validateSpriteName keywords typeKeywords name project = none →
      ensureValidSpriteName keywords typeKeywords name project = Except.ok name := by
  intro keywords typeKeywords name project h
  rw [ensureValidSpriteName, h]
  rfl

/-- C6 witness: the valid unique name `Cat2` round-trips through
`ensureValidSpriteName` on a project with an unrelated sprite. -/
theorem ensureValidSpriteName_roundtrip_witness :
    validateSpriteName [] [] (str "Cat2") (some ⟨[⟨str "Dog", []⟩], []⟩) = none ∧
    ensureValidSpriteName [] [] (str "Cat2") (some ⟨[⟨str "Dog", []⟩], []⟩) =
      Except.ok (str "Cat2") :=
  ⟨by decide,
    ensureValidSpriteName_roundtrip [] [] (str "Cat2") (some ⟨[⟨str "Dog", []⟩], []⟩)
      (by decide)⟩

/-- C7: `ensureValidCostumeName` is idempotent on every successful result:
feeding a returned name back in with the same sprite scope returns it
unchanged. -/
theorem ensureValidCostumeName_idempotent :
    ∀ keywords typeKeywords name sprite m,
      ensureValidCostumeName keywords typeKeywords name sprite = Except.ok m →
      ensureValidCostumeName keywords typeKeywords m sprite = Except.ok m := by
  intro keywords typeKeywords name sprite m h
  rw [ensureValidCostumeName] at h
  by_cases hv : (validateCostumeName keywords typeKeywords name sprite).isNone = true
  · rw [if_pos hv] at h
    injection h with h2
    subst h2
    rw [ensureValidCostumeName, if_pos hv]
  · rw [if_neg hv] at h
    have hm : (validateCostumeName keywords typeKeywords m sprite).isNone = true := by
      simp only [getCostumeName] at h
      exact getValidName_ok _ _ _ h
    rw [ensureValidCostumeName, if_pos hm]

/-- C7 witness: on a sprite already owning costume `hat`, the first call
renames `hat` to `hat2` and the second call keeps `hat2`. -/
theorem ensureValidCostumeName_idempotent_witness :
    ensureValidCostumeName [] [] (str "hat") (some ⟨str "S", [⟨str "hat"⟩]⟩) =
      Except.ok (str "hat2") ∧
    ensureValidCostumeName [] [] (str "hat2") (some ⟨str "S", [⟨str "hat"⟩]⟩) =
      Except.ok (str "hat2") :=
  ⟨rfl, ensureValidCostumeName_idempotent [] [] (str "hat")
    (some ⟨str "S", [⟨str "hat"⟩]⟩) (str "hat2") rfl⟩

/-- One unfolding of the `getValidName` loop. -/
theorem getValidNameAux_step (base : Str) (isValid : Str → Bool) (k i : Nat) :
    getValidNameAux base isValid (k + 1) i =
      (if isValid (if i = 1 then base else base ++ (Nat.repr i).data) then
        (Except.ok (if i = 1 then base else base ++ (Nat.repr i).data), 1)
      else ((getValidNameAux base isValid k (i + 1)).1,
            (getValidNameAux base isValid k (i + 1)).2 + 1)) := rfl

/-- If the base itself fails `isValid` but `base + 2` passes, the loop
returns `base + 2`. -/
theorem getValidName_two_steps (base : Str) (isValid : Str → Bool)
    (h1 : isValid base = false) (h2 : isValid (base ++ (Nat.repr 2).data) = true) :
    getValidName base isValid = Except.ok (base ++ (Nat.repr 2).data) := by
  rw [getValidName]
  show (getValidNameAux base isValid (10000 + 1) 1).1 = _
  rw [getValidNameAux_step]
  have hi : (if (1 : Nat) = 1 then base else base ++ (Nat.repr 1).data) = base := by simp
  rw [hi, if_neg (by simp [h1])]
  show (getValidNameAux base isValid (9999 + 1) 2).1 = _
  rw [getValidNameAux_step]
  have hi2 : (if (2 : Nat) = 1 then base else base ++ (Nat.repr 2).data) =
      base ++ (Nat.repr 2).data := by simp
  rw [hi2, if_pos h2]

/-- C8 counterexample: in a project already containing sprites `Foo` and
`Foo2`, `getSpriteName` applied to base `Foo` returns `Foo3`, not the
claimed `Foo2`. -/
theorem getSpriteName_Foo2_counterexample :
    getSpriteName [] [] (some ⟨[⟨str "Foo", []⟩, ⟨str "Foo2", []⟩], []⟩) (str "Foo") =
      Except.ok (str "Foo3") ∧ str "Foo3" ≠ str "Foo2" :=
  ⟨rfl, by decide⟩

/-- C8 amended: in a project containing a sprite named `Foo`, in which no
sprite or sound is named `Foo2` and `Foo2` is not reserved,
`getSpriteName` applied to base `Foo` returns `Foo2`. -/
theorem getSpriteName_Foo2_amended :
    ∀ keywords typeKeywords project,
      (∃ s ∈ project.sprites, s.name = str "Foo") →
      (∀ s ∈ project.sprites, s.name ≠ str "Foo2") →
      (∀ s ∈ project.sounds, s.name ≠ str "Foo2") →
      str "Foo2" ∉ typeKeywords → str "Foo2" ∉ keywords →
      getSpriteName keywords typeKeywords (some project) (str "Foo") =
        Except.ok (str "Foo2") := by
  intro keywords typeKeywords project hfoo hs hd htk hk
  have h1 : (validateSpriteName keywords typeKeywords (str "Foo")
      (some project)).isNone = false := by
    rw [validateSpriteName]
    cases hva : validateAssetName keywords typeKeywords (str "Foo") with
    | some e => rfl
    | none =>
      obtain ⟨s, hmem, hname⟩ := hfoo
      rw [if_pos (List.any_eq_true.mpr ⟨s, hmem, by simp [hname]⟩)]
      rfl
  have hva2 : validateAssetName keywords typeKeywords (str "Foo2") = none := by
    rw [validateAssetName, if_neg (by decide), if_neg (by decide), if_neg (by decide),
      if_neg htk, if_neg hk]
  have h2 : (validateSpriteName keywords typeKeywords (str "Foo2")
      (some project)).isNone = true := by
    rw [validateSpriteName, hva2, if_neg, if_neg]
    · rfl
    · simp only [List.any_eq_true, beq_iff_eq, not_exists, not_and]
      exact fun s hmem => hd s hmem
    · simp only [List.any_eq_true, beq_iff_eq, not_exists, not_and]
      exact fun s hmem => hs s hmem
  simp only [getSpriteName]
  have hn : normalizeAssetName (str "Foo") Cas.pascal = str "Foo" := by decide
  rw [hn, if_neg (by decide)]
  have := getValidName_two_steps (str "Foo")
    (fun n => (validateSpriteName keywords typeKeywords n (some project)).isNone) h1 (by
      have he : str "Foo" ++ (Nat.repr 2).data = str "Foo2" := by decide
      rw [he]
      exact h2)
  rw [this]
  have he : str "Foo" ++ (Nat.repr 2).data = str "Foo2" := by decide
  rw [he]

/-- C8 witness: the amended claim on the one-sprite project containing only
`Foo`, with empty reserved sets. -/
theorem getSpriteName_Foo2_amended_witness :
    getSpriteName [] [] (some ⟨[⟨str "Foo", []⟩], []⟩) (str "Foo") =
      Except.ok (str "Foo2") :=
  getSpriteName_Foo2_amended [] [] ⟨[⟨str "Foo", []⟩], []⟩
    ⟨⟨str "Foo", []⟩, by decide, rfl⟩ (by decide) (by decide) (by decide) (by decide)

/-- C9: concrete normalizations — `Hello World!` becomes `helloWorld`
(camel) and `HelloWorld` (pascal), leading digits of `123abc` are
stripped, and the empty string stays empty. -/
theorem normalizeAssetName_examples :
    normalizeAssetName (str "Hello World!") Cas.camel = str "helloWorld" ∧
    normalizeAssetName (str "Hello World!") Cas.pascal = str "HelloWorld" ∧
    normalizeAssetName (str "123abc") Cas.camel = str "abc" ∧
    normalizeAssetName (str "") Cas.camel = str "" := by
  refine ⟨?_, ?_, ?_, ?_⟩ <;> decide

/-- C10: `normalizeAssetName` is total — every fragment reaching `upFirst`
is non-empty after the split-and-filter stage, so the exception-aware
pipeline `normalizeAssetNameE` never throws and agrees with the total
function on every input and either style. -/
theorem normalizeAssetName_total :
    ∀ src cas, (∀ p ∈ normalizeParts src, p ≠ []) ∧
      normalizeAssetNameE src cas = some (normalizeAssetName src cas) :=
  fun src cas => ⟨normalizeParts_ne_nil src, normalizeAssetNameE_eq_some src cas⟩

/-- C5 witness: the delegation instantiated at a concrete name and project. -/
theorem validateSoundName_eq_validateSpriteName_witness :
    validateSoundName [] [] (str "pop") (some ⟨[⟨str "pop", []⟩], []⟩) =
      validateSpriteName [] [] (str "pop") (some ⟨[⟨str "pop", []⟩], []⟩) :=
  validateSoundName_eq_validateSpriteName [] [] (str "pop") (some ⟨[⟨str "pop", []⟩], []⟩)

/-- C10 witness: totality instantiated at a concrete source string. -/
theorem normalizeAssetName_total_witness :
    normalizeAssetNameE (str "Hello World!") Cas.camel =
      some (normalizeAssetName (str "Hello World!") Cas.camel) :=
  (normalizeAssetName_total (str "Hello World!") Cas.camel).2
